import Mathlib

/-!
# Verification of the City-Service-API caching and telemetry core

Shallow embedding of `src/app/cache.py` (LocalLRUCache, RedisCache,
CacheManager) and `src/app/kafka_logger.py` (message dataclasses,
KafkaLogger) with proofs of the specified properties.

Modelling conventions:
* Wall-clock time (`time.time()`, a Python float) is modelled as `ℚ` and
  passed explicitly to every operation that reads the clock.
* `OrderedDict` is modelled as an association list ordered from
  least-recently-used (head) to most-recently-used (last).  Python's
  `move_to_end` becomes erase-then-append; `popitem(last=False)` becomes
  dropping the head.  The embedding's `eraseKey` removes every pair with
  the key; since the `OrderedDict` keeps keys unique this coincides with
  Python's single-entry `del`.
* Python counters only ever increment from 0 or reset to 0, so they are
  `ℕ`.
-/

namespace CityService

/-- `CacheItem` from `src/app/cache.py` (lines 21-44): cached value plus
LRU/TTL metadata.  The state shown here is the post-`__post_init__` state,
in which `last_accessed` is always set. -/
structure CacheItem where
  value : String
  timestamp : ℚ
  access_count : ℕ
  last_accessed : ℚ
  deriving DecidableEq, Repr

/-- `CacheItem.is_expired` (cache.py line 37-39):
`time.time() - self.timestamp > ttl`, with `now` passed explicitly. -/
def CacheItem.is_expired (item : CacheItem) (now : ℚ) (ttl : ℚ) : Bool :=
  decide (now - item.timestamp > ttl)

/-- `CacheItem.update_access` (cache.py lines 41-44). -/
def CacheItem.update_access (item : CacheItem) (now : ℚ) : CacheItem :=
  { item with access_count := item.access_count + 1, last_accessed := now }

/-- The `OrderedDict` contents of a `LocalLRUCache`: least-recently-used
first, most-recently-used last. -/
abbrev CacheList := List (String × CacheItem)

/-- Key lookup in the ordered-dict model (`key in self.cache` /
`self.cache[key]`). -/
def lookupKey (c : CacheList) (k : String) : Option CacheItem :=
  match c with
  | [] => none
  | (k', v) :: rest => if k' = k then some v else lookupKey rest k

/-- Removal of a key from the ordered-dict model (`del self.cache[key]`);
removes every pair carrying the key, which agrees with Python because an
`OrderedDict` holds each key at most once. -/
def eraseKey (c : CacheList) (k : String) : CacheList :=
  match c with
  | [] => []
  | (ka, v) :: rest =>
    if ka = k then eraseKey rest k else (ka, v) :: eraseKey rest k

/-- `LocalLRUCache` state (cache.py lines 63-82): the ordered map plus the
four performance counters.  `max_size` and `ttl` are the construction
parameters (defaults 10 and 600). -/
structure LocalLRUCache where
  max_size : ℕ
  ttl : ℚ
  cache : CacheList
  hits : ℕ
  misses : ℕ
  evictions : ℕ
  expirations : ℕ
  deriving DecidableEq, Repr

/-- A freshly constructed `LocalLRUCache(max_size, ttl)`. -/
def LocalLRUCache.init (max_size : ℕ) (ttl : ℚ) : LocalLRUCache :=
  { max_size := max_size, ttl := ttl, cache := [],
    hits := 0, misses := 0, evictions := 0, expirations := 0 }

/-- `LocalLRUCache.get` (cache.py lines 84-114): returns the value and the
updated cache state.  Absent key: miss counter.  Expired entry: entry
deleted, expiration and miss counters.  Otherwise: move to end, update
access statistics, hit counter. -/
def LocalLRUCache.get (s : LocalLRUCache) (key : String) (now : ℚ) :
    Option String × LocalLRUCache :=
  match lookupKey s.cache key with
  | none => (none, { s with misses := s.misses + 1 })
  | some item =>
    if item.is_expired now s.ttl then
      (none, { s with cache := eraseKey s.cache key,
                      expirations := s.expirations + 1,
                      misses := s.misses + 1 })
    else
      (some item.value,
       { s with cache := eraseKey s.cache key ++ [(key, item.update_access now)],
                hits := s.hits + 1 })

/-- `LocalLRUCache.set` (cache.py lines 116-145).  Existing key: value and
timestamp refreshed, access updated, moved to end, no eviction.  New key:
if `len(cache) >= max_size` the head (LRU) is popped first and the
eviction counter incremented.  Caveat: when `max_size = 0` and the cache
is empty Python's `popitem` raises `KeyError`; the configuration
(`cache_max_size`, `ge=1`) rules that out, and theorems that depend on the
eviction path assume `1 ≤ max_size`. -/
def LocalLRUCache.set (s : LocalLRUCache) (key value : String) (now : ℚ) :
    LocalLRUCache :=
  match lookupKey s.cache key with
  | some item =>
    let item' := ({ item with value := value, timestamp := now }).update_access now
    { s with cache := eraseKey s.cache key ++ [(key, item')] }
  | none =>
    if s.cache.length ≥ s.max_size then
      { s with cache := s.cache.tail ++ [(key, ⟨value, now, 0, now⟩)],
               evictions := s.evictions + 1 }
    else
      { s with cache := s.cache ++ [(key, ⟨value, now, 0, now⟩)] }

/-- `LocalLRUCache.delete` (cache.py lines 147-162): remove the key if
present and report whether it was; TTL and the clock are never consulted
and no counter is touched. -/
def LocalLRUCache.delete (s : LocalLRUCache) (key : String) :
    Bool × LocalLRUCache :=
  if (lookupKey s.cache key).isSome then
    (true, { s with cache := eraseKey s.cache key })
  else
    (false, s)

/-- `LocalLRUCache.clear` (cache.py lines 164-172): remove all entries and
reset all four counters. -/
def LocalLRUCache.clear (s : LocalLRUCache) : LocalLRUCache :=
  { s with cache := [], hits := 0, misses := 0, evictions := 0,
           expirations := 0 }

/-- `LocalLRUCache.size` (cache.py lines 174-176). -/
def LocalLRUCache.size (s : LocalLRUCache) : ℕ :=
  s.cache.length

/-- Round-half-even on rationals, modelling Python's `round` tie-breaking.
Python rounds the binary double; on the inputs considered here the values
are exact, so the rational rounding agrees. -/
def roundHalfEven (q : ℚ) : ℤ :=
  if q - ⌊q⌋ = 1 / 2 then (if 2 ∣ ⌊q⌋ then ⌊q⌋ else ⌊q⌋ + 1) else round q

/-- Python's `round(q, 2)`. -/
def round2 (q : ℚ) : ℚ :=
  (roundHalfEven (q * 100) : ℚ) / 100

/-- The dictionary returned by `LocalLRUCache.get_stats`
(cache.py lines 178-198). -/
structure CacheStats where
  current_size : ℕ
  stats_max_size : ℕ
  hit_rate : ℚ
  total_hits : ℕ
  total_misses : ℕ
  total_requests : ℕ
  stats_evictions : ℕ
  stats_expirations : ℕ
  ttl_seconds : ℚ
  deriving DecidableEq, Repr

/-- `LocalLRUCache.get_stats` (cache.py lines 178-198):
`hit_rate = (hits / total) * 100` when `total > 0` else `0`, reported
through `round(hit_rate, 2)`. -/
def LocalLRUCache.get_stats (s : LocalLRUCache) : CacheStats :=
  let total_requests := s.hits + s.misses
  let hit_rate : ℚ :=
    if total_requests > 0 then ((s.hits : ℚ) / (total_requests : ℚ)) * 100 else 0
  { current_size := s.cache.length
    stats_max_size := s.max_size
    hit_rate := round2 hit_rate
    total_hits := s.hits
    total_misses := s.misses
    total_requests := total_requests
    stats_evictions := s.evictions
    stats_expirations := s.expirations
    ttl_seconds := s.ttl }

/-- One `LocalLRUCache` operation, with the clock value observed by the
operations that read `time.time()`. -/
inductive CacheOp where
  | get (key : String) (now : ℚ)
  | set (key value : String) (now : ℚ)
  | delete (key : String)
  | clear
  deriving DecidableEq, Repr

/-- Apply one operation to the cache state, discarding the returned
value. -/
def LocalLRUCache.apply (s : LocalLRUCache) : CacheOp → LocalLRUCache
  | .get k now => (s.get k now).2
  | .set k v now => s.set k v now
  | .delete k => (s.delete k).2
  | .clear => s.clear

/-- Run a sequence of operations from a given state. -/
def LocalLRUCache.run (s : LocalLRUCache) : List CacheOp → LocalLRUCache
  | [] => s
  | op :: rest => (s.apply op).run rest

/-! ## Remote cache adapter (`RedisCache`, cache.py lines 217-415)

Network calls are modelled by an environment `RedisEnv` giving the
outcome of each remote primitive; `RemoteResult.err` stands for the
exception Python would raise inside the `try` block.  Each adapter
method is a total function of the environment — this totality is the
embedding of "the method catches every exception and returns a neutral
value instead of raising". -/

/-- Outcome of one remote primitive: a value, or a raised exception. -/
inductive RemoteResult (α : Type) where
  | ok (a : α)
  | err (msg : String)
  deriving DecidableEq, Repr

/-- The behaviour of the external Redis service during one call. -/
structure RedisEnv where
  getResult : String → RemoteResult (Option String)
  setResult : String → String → RemoteResult Bool
  delResult : String → RemoteResult ℕ
  flushResult : RemoteResult Unit
  pingResult : RemoteResult Bool

/-- `RedisCache` connection state.  `connected` also stands in for
`redis_client is not None`: the source sets and clears the two
together. -/
structure RedisCache where
  connected : Bool
  deriving DecidableEq, Repr

/-- `RedisCache.get` (cache.py lines 285-308): `None` when disconnected
or on any error, the remote value otherwise. -/
def RedisCache.get (env : RedisEnv) (s : RedisCache) (key : String) :
    Option String :=
  if s.connected then
    match env.getResult key with
    | .ok v => v
    | .err _ => none
  else none

/-- `RedisCache.set` (cache.py lines 310-335): `False` when disconnected
or on any error, `bool(result)` otherwise. -/
def RedisCache.set (env : RedisEnv) (s : RedisCache) (key value : String) :
    Bool :=
  if s.connected then
    match env.setResult key value with
    | .ok b => b
    | .err _ => false
  else false

/-- `RedisCache.delete` (cache.py lines 337-358): `False` when
disconnected or on any error, `bool(delete-count)` otherwise. -/
def RedisCache.delete (env : RedisEnv) (s : RedisCache) (key : String) :
    Bool :=
  if s.connected then
    match env.delResult key with
    | .ok n => decide (n ≠ 0)
    | .err _ => false
  else false

/-- `RedisCache.clear` (cache.py lines 360-375): `False` when
disconnected or on any error, `True` after a successful `flushdb`. -/
def RedisCache.clear (env : RedisEnv) (s : RedisCache) : Bool :=
  if s.connected then
    match env.flushResult with
    | .ok _ => true
    | .err _ => false
  else false

/-- `RedisCache.health_check` (cache.py lines 377-394): `False` when
disconnected; on an error the flag `connected` is also cleared. -/
def RedisCache.health_check (env : RedisEnv) (s : RedisCache) :
    Bool × RedisCache :=
  if s.connected then
    match env.pingResult with
    | .ok b => (b, s)
    | .err _ => (false, { s with connected := false })
  else (false, s)

/-! ## Cache coordinator (`CacheManager`, cache.py lines 422-564)

The coordinator's remote accesses are recorded in a trace so that "does
not touch the remote tier" is a provable statement. -/

/-- A remote-tier access performed during a coordinator call. -/
inductive RemoteOp where
  | get (key : String)
  | set (key value : String)
  | delete (key : String)
  deriving DecidableEq, Repr

/-- `CacheManager` state: the two tiers. -/
structure CacheManager where
  local_cache : LocalLRUCache
  redis_cache : RedisCache
  deriving DecidableEq, Repr

/-- `CacheManager.get` (cache.py lines 455-480): local tier first; on a
local miss query the remote tier, and on a remote hit write the value
back into the local tier only.  Returns the value, the new state, and
the trace of remote accesses. -/
def CacheManager.get (env : RedisEnv) (s : CacheManager) (key : String)
    (now : ℚ) : Option String × CacheManager × List RemoteOp :=
  match s.local_cache.get key now with
  | (some value, local') => (some value, { s with local_cache := local' }, [])
  | (none, local') =>
    match RedisCache.get env s.redis_cache key with
    | some value =>
      (some value, { s with local_cache := local'.set key value now },
       [RemoteOp.get key])
    | none => (none, { s with local_cache := local' }, [RemoteOp.get key])

/-- `CacheManager.set` (cache.py lines 482-496): write the local tier,
then attempt the remote write and discard its boolean result.  The
remote outcome (`env`) does not influence the returned state. -/
def CacheManager.set (env : RedisEnv) (s : CacheManager) (key value : String)
    (now : ℚ) : CacheManager × List RemoteOp :=
  let local' := s.local_cache.set key value now
  let _ := RedisCache.set env s.redis_cache key value
  ({ s with local_cache := local' }, [RemoteOp.set key value])

/-! ## Telemetry event model (`kafka_logger.py` lines 25-105)

Each dataclass is embedded post-`__post_init__` (the timestamp is always
set).  Fields Python may leave as `None` are `Option`s.  `asdict`
produces the ordered field list with `none` for unset fields; `to_dict`
is the sparse dictionary comprehension
`{k: v for k, v in asdict(self).items() if v is not None}`. -/

/-- A JSON-serializable value appearing in a telemetry payload. -/
inductive JVal where
  | s (v : String)
  | q (v : ℚ)
  | i (v : ℤ)
  | b (v : Bool)
  | dict (v : List (String × JVal))

/-- The sparse dictionary comprehension shared by all three `to_dict`
methods: keep exactly the fields whose value is set. -/
def sparse (l : List (String × Option JVal)) : List (String × JVal) :=
  l.filterMap (fun p => p.2.map (fun v => (p.1, v)))

/-- `RequestLogMessage` (kafka_logger.py lines 25-59). -/
structure RequestLogMessage where
  event_type : String := "api_request"
  timestamp : String
  request_id : Option String := none
  city_name : Option String := none
  endpoint : Option String := none
  method : String := "GET"
  response_time_ms : Option ℚ := none
  status_code : Option ℤ := none
  cache_hit : Option Bool := none
  cache_hit_percentage : Option ℚ := none
  total_requests : Option ℕ := none
  service : String := "city_service"
  version : String := "1.0.0"

/-- `dataclasses.asdict` on a `RequestLogMessage`, in field order. -/
def RequestLogMessage.asdict (m : RequestLogMessage) :
    List (String × Option JVal) :=
  [("event_type", some (.s m.event_type)),
   ("timestamp", some (.s m.timestamp)),
   ("request_id", m.request_id.map .s),
   ("city_name", m.city_name.map .s),
   ("endpoint", m.endpoint.map .s),
   ("method", some (.s m.method)),
   ("response_time_ms", m.response_time_ms.map .q),
   ("status_code", m.status_code.map .i),
   ("cache_hit", m.cache_hit.map .b),
   ("cache_hit_percentage", m.cache_hit_percentage.map .q),
   ("total_requests", m.total_requests.map (fun n => .i (n : ℤ))),
   ("service", some (.s m.service)),
   ("version", some (.s m.version))]

/-- `RequestLogMessage.to_dict` (kafka_logger.py lines 57-59). -/
def RequestLogMessage.to_dict (m : RequestLogMessage) :
    List (String × JVal) :=
  sparse m.asdict

/-- `SystemEventMessage` (kafka_logger.py lines 62-82). -/
structure SystemEventMessage where
  event_type : String := "system_event"
  timestamp : String
  event_name : Option String := none
  message : Option String := none
  level : String := "INFO"
  service : String := "city_service"
  version : String := "1.0.0"
  metadata : Option (List (String × JVal)) := none

/-- `dataclasses.asdict` on a `SystemEventMessage`, in field order. -/
def SystemEventMessage.asdict (m : SystemEventMessage) :
    List (String × Option JVal) :=
  [("event_type", some (.s m.event_type)),
   ("timestamp", some (.s m.timestamp)),
   ("event_name", m.event_name.map .s),
   ("message", m.message.map .s),
   ("level", some (.s m.level)),
   ("service", some (.s m.service)),
   ("version", some (.s m.version)),
   ("metadata", m.metadata.map .dict)]

/-- `SystemEventMessage.to_dict` (kafka_logger.py lines 80-82). -/
def SystemEventMessage.to_dict (m : SystemEventMessage) :
    List (String × JVal) :=
  sparse m.asdict

/-- `ErrorLogMessage` (kafka_logger.py lines 85-105). -/
structure ErrorLogMessage where
  event_type : String := "error"
  timestamp : String
  error_type : Option String := none
  error_message : Option String := none
  stack_trace : Option String := none
  context : Option (List (String × JVal)) := none
  service : String := "city_service"
  version : String := "1.0.0"

/-- `dataclasses.asdict` on an `ErrorLogMessage`, in field order. -/
def ErrorLogMessage.asdict (m : ErrorLogMessage) :
    List (String × Option JVal) :=
  [("event_type", some (.s m.event_type)),
   ("timestamp", some (.s m.timestamp)),
   ("error_type", m.error_type.map .s),
   ("error_message", m.error_message.map .s),
   ("stack_trace", m.stack_trace.map .s),
   ("context", m.context.map .dict),
   ("service", some (.s m.service)),
   ("version", some (.s m.version))]

/-- `ErrorLogMessage.to_dict` (kafka_logger.py lines 103-105). -/
def ErrorLogMessage.to_dict (m : ErrorLogMessage) :
    List (String × JVal) :=
  sparse m.asdict

/-! ## Telemetry emitter (`KafkaLogger`, kafka_logger.py lines 112-451) -/

/-- An entry of the emitter's internal `asyncio.Queue`. -/
structure QueuedMessage where
  topic : String
  payload : List (String × JVal)

/-- `KafkaLogger` state (kafka_logger.py lines 124-142).  `connected`
also stands in for `producer is not None` (the source sets and clears
the two together).  The queue capacity is fixed at 10000 in
`__init__`. -/
structure KafkaLogger where
  connected : Bool
  total_requests : ℕ
  cache_hits : ℕ
  cache_misses : ℕ
  queue : List QueuedMessage
  queue_maxsize : ℕ

/-- A freshly constructed `KafkaLogger()`. -/
def KafkaLogger.init : KafkaLogger :=
  { connected := false, total_requests := 0, cache_hits := 0,
    cache_misses := 0, queue := [], queue_maxsize := 10000 }

/-- Outcome of one broker `send_and_wait` call, supplied by the
environment. -/
inductive KafkaSendResult where
  | ok
  | timeout
  | error (msg : String)
  deriving DecidableEq, Repr

/-- The behaviour of the external Kafka broker during one call. -/
structure KafkaEnv where
  send : String → List (String × JVal) → KafkaSendResult

/-- What a `_send_message` call does, as seen by its caller. -/
inductive SendOutcome where
  /-- delivered; the method returns `True`. -/
  | sent
  /-- queue full: `put_nowait` raised `QueueFull`, which is caught; the
  message is dropped, an error is logged, the method returns `False`. -/
  | dropped
  /-- disconnected with room in the queue: the message is enqueued, then
  `await` applied to `put_nowait`'s `None` return value raises
  `TypeError`, which no handler catches — the `return True` on
  kafka_logger.py line 254 is unreachable. -/
  | typeError
  /-- broker timeout: the method returns `False`. -/
  | failed
  /-- other broker error: `connected` is cleared, the method returns
  `False`. -/
  | failedDisconnect
  deriving DecidableEq, Repr

/-- `KafkaLogger._send_message` (kafka_logger.py lines 239-274). -/
def KafkaLogger.send_message (env : KafkaEnv) (s : KafkaLogger)
    (topic : String) (message : List (String × JVal)) :
    SendOutcome × KafkaLogger :=
  if s.connected then
    match env.send topic message with
    | .ok => (.sent, s)
    | .timeout => (.failed, s)
    | .error _ => (.failedDisconnect, { s with connected := false })
  else
    if s.queue.length ≥ s.queue_maxsize then
      (.dropped, s)
    else
      (.typeError, { s with queue := s.queue ++ [⟨topic, message⟩] })

/-- Python's `endpoint or default` in `log_request`: `None` and the
empty string both fall back to the default. -/
def pyStrOr (o : Option String) (default : String) : String :=
  match o with
  | some e => if e = "" then default else e
  | none => default

/-- The counter update `log_request` performs before building its
message (kafka_logger.py lines 323-328). -/
def KafkaLogger.bump (s : KafkaLogger) (cache_hit : Bool) : KafkaLogger :=
  { s with
    total_requests := s.total_requests + 1
    cache_hits := if cache_hit then s.cache_hits + 1 else s.cache_hits
    cache_misses := if cache_hit then s.cache_misses else s.cache_misses + 1 }

/-- `KafkaLogger.log_request` (kafka_logger.py lines 301-351): update
the running counters, build the `RequestLogMessage`, and fire
`_send_message` as a detached task (`asyncio.create_task`): the caller
gets the updated state back unconditionally, whatever the detached
send's outcome is. -/
def KafkaLogger.log_request (env : KafkaEnv) (s : KafkaLogger)
    (city_name : String) (response_time : ℚ) (cache_hit : Bool)
    (status_code : ℤ) (endpoint : Option String) (method : String)
    (request_id : Option String) (topic : String) (nowIso : String) :
    KafkaLogger × SendOutcome :=
  let s1 : KafkaLogger := s.bump cache_hit
  let pct : ℚ :=
    if s1.total_requests > 0 then
      ((s1.cache_hits : ℚ) / (s1.total_requests : ℚ)) * 100
    else 0
  let msg : RequestLogMessage :=
    { timestamp := nowIso
      request_id := request_id
      city_name := some city_name
      endpoint := some (pyStrOr endpoint
        ("/api/v1/cities/" ++ city_name ++ "/country-code"))
      method := method
      response_time_ms := some (round2 (response_time * 1000))
      status_code := some status_code
      cache_hit := some cache_hit
      cache_hit_percentage := some (round2 pct)
      total_requests := some s1.total_requests }
  let res := s1.send_message env topic msg.to_dict
  (res.2, res.1)

/-! ## Concrete fixtures used by scenario conjuncts, witnesses and
counterexamples -/

/-- Spec scenario: capacity 10, TTL 600 s, insert 11 distinct keys in
order. -/
def scenarioElevenInserts : LocalLRUCache :=
  (LocalLRUCache.init 10 600).run
    [.set "k1" "v1" 1, .set "k2" "v2" 2, .set "k3" "v3" 3,
     .set "k4" "v4" 4, .set "k5" "v5" 5, .set "k6" "v6" 6,
     .set "k7" "v7" 7, .set "k8" "v8" 8, .set "k9" "v9" 9,
     .set "k10" "v10" 10, .set "k11" "v11" 11]

/-- A remote environment in which every Redis primitive raises. -/
def envRedisDown : RedisEnv :=
  { getResult := fun _ => .err "ConnectionError"
    setResult := fun _ _ => .err "ConnectionError"
    delResult := fun _ => .err "ConnectionError"
    flushResult := .err "ConnectionError"
    pingResult := .err "ConnectionError" }

/-- A remote environment in which every Redis primitive succeeds and
every key holds the given value. -/
def envRedisHolds (v : String) : RedisEnv :=
  { getResult := fun _ => .ok (some v)
    setResult := fun _ _ => .ok true
    delResult := fun _ => .ok 1
    flushResult := .ok ()
    pingResult := .ok true }

/-- A coordinator over an empty local cache (capacity 10, TTL 600) and a
connected remote adapter. -/
def managerFresh : CacheManager :=
  { local_cache := LocalLRUCache.init 10 600, redis_cache := { connected := true } }

/-- A broker environment in which every send succeeds. -/
def envKafkaOk : KafkaEnv :=
  ⟨fun _ _ => .ok⟩

/-- A disconnected emitter whose 10000-slot delivery queue is full. -/
def loggerFullQueue : KafkaLogger :=
  { connected := false, total_requests := 5, cache_hits := 3,
    cache_misses := 2,
    queue := List.replicate 10000 ⟨"city_service_logs", []⟩,
    queue_maxsize := 10000 }

/-- A full capacity-2 cache holding "a" (least recently used) and
"b". -/
def cacheTwoFull : LocalLRUCache :=
  { max_size := 2, ttl := 600,
    cache := [("a", ⟨"1", 0, 0, 0⟩), ("b", ⟨"2", 0, 0, 0⟩)],
    hits := 0, misses := 0, evictions := 0, expirations := 0 }

/-- A cache holding a single entry whose age is far past the 600-second
TTL, with non-zero counters. -/
def cacheWithStale : LocalLRUCache :=
  { max_size := 10, ttl := 600, cache := [("old", ⟨"stale", 0, 3, 0⟩)],
    hits := 7, misses := 4, evictions := 2, expirations := 1 }

/-- A cache state that has seen exactly one hit and one miss. -/
def stateOneHitOneMiss : LocalLRUCache :=
  { max_size := 10, ttl := 600, cache := [], hits := 1, misses := 1,
    evictions := 0, expirations := 0 }

section AssocLemmas

theorem lookupKey_eraseKey_self (c : CacheList) (k : String) :
    lookupKey (eraseKey c k) k = none := by
  induction c with
  | nil => rfl
  | cons p rest ih =>
    obtain ⟨ka, v⟩ := p
    by_cases h : ka = k
    · simpa [eraseKey, h] using ih
    · simpa [eraseKey, lookupKey, h] using ih

theorem lookupKey_eraseKey_ne (c : CacheList) (k k' : String) (h : k' ≠ k) :
    lookupKey (eraseKey c k) k' = lookupKey c k' := by
  induction c with
  | nil => rfl
  | cons p rest ih =>
    obtain ⟨ka, v⟩ := p
    by_cases hp : ka = k
    · subst hp
      simpa [eraseKey, lookupKey, Ne.symm h] using ih
    · by_cases hq : ka = k'
      · subst hq
        simp [eraseKey, lookupKey, hp, h]
      · simpa [eraseKey, lookupKey, hp, hq] using ih

theorem lookupKey_append_right (c c' : CacheList) (k : String)
    (h : lookupKey c k = none) :
    lookupKey (c ++ c') k = lookupKey c' k := by
  induction c with
  | nil => rfl
  | cons p rest ih =>
    obtain ⟨ka, v⟩ := p
    by_cases hp : ka = k
    · simp [lookupKey, hp] at h
    · simp only [lookupKey, if_neg hp] at h
      simpa [lookupKey, hp] using ih h

theorem lookupKey_append_left (c c' : CacheList) (k : String)
    (h : (lookupKey c k).isSome) :
    lookupKey (c ++ c') k = lookupKey c k := by
  induction c with
  | nil => simp [lookupKey] at h
  | cons p rest ih =>
    obtain ⟨ka, v⟩ := p
    by_cases hp : ka = k
    · simp [lookupKey, hp]
    · simp only [lookupKey, if_neg hp] at h
      simpa [lookupKey, hp] using ih h

theorem eraseKey_length_le (c : CacheList) (k : String) :
    (eraseKey c k).length ≤ c.length := by
  induction c with
  | nil => simp [eraseKey]
  | cons p rest ih =>
    obtain ⟨ka, v⟩ := p
    by_cases hp : ka = k
    · simp only [eraseKey, if_pos hp]
      simp only [List.length_cons]
      omega
    · simp only [eraseKey, if_neg hp, List.length_cons]
      omega

theorem eraseKey_length_lt (c : CacheList) (k : String)
    (h : (lookupKey c k).isSome) :
    (eraseKey c k).length < c.length := by
  induction c with
  | nil => simp [lookupKey] at h
  | cons p rest ih =>
    obtain ⟨ka, v⟩ := p
    by_cases hp : ka = k
    · have := eraseKey_length_le rest k
      simp only [eraseKey, if_pos hp, List.length_cons]
      omega
    · simp only [lookupKey, if_neg hp] at h
      have := ih h
      simp only [eraseKey, if_neg hp, List.length_cons]
      omega

theorem lookupKey_eq_none_of_not_mem (c : CacheList) (k : String)
    (h : k ∉ c.map Prod.fst) : lookupKey c k = none := by
  induction c with
  | nil => rfl
  | cons p rest ih =>
    obtain ⟨ka, v⟩ := p
    simp only [List.map_cons, List.mem_cons] at h
    push_neg at h
    have hne : ka ≠ k := fun hc => h.1 hc.symm
    simp only [lookupKey, if_neg hne]
    exact ih h.2

theorem lookupKey_append_single_ne (c : CacheList) (k' : String)
    (p : String × CacheItem) (h : p.1 ≠ k') :
    lookupKey (c ++ [p]) k' = lookupKey c k' := by
  induction c with
  | nil => simp [lookupKey, h]
  | cons q rest ih =>
    obtain ⟨qa, v⟩ := q
    by_cases hq : qa = k' <;> simp [lookupKey, hq, ih]

theorem lookupKey_tail_none (c : CacheList) (k : String)
    (h : lookupKey c k = none) : lookupKey c.tail k = none := by
  cases c with
  | nil => rfl
  | cons p rest =>
    obtain ⟨ka, v⟩ := p
    by_cases hp : ka = k
    · simp [lookupKey, hp] at h
    · simpa [lookupKey, hp] using h

end AssocLemmas

section LocalCacheLemmas

/-- After `set`, the key maps to an item holding the just-set value with
the call's timestamp (both in the refresh branch and in the insert
branches). -/
theorem set_lookup_self (s : LocalLRUCache) (key value : String) (now : ℚ) :
    ∃ item, lookupKey (s.set key value now).cache key = some item ∧
      item.value = value ∧ item.timestamp = now := by
  cases hl : lookupKey s.cache key with
  | some item =>
    refine ⟨CacheItem.update_access ⟨value, now, item.access_count, item.last_accessed⟩ now, ?_, rfl, rfl⟩
    simp only [LocalLRUCache.set, hl]
    rw [lookupKey_append_right _ _ _ (lookupKey_eraseKey_self s.cache key)]
    simp [lookupKey]
  | none =>
    refine ⟨⟨value, now, 0, now⟩, ?_, rfl, rfl⟩
    simp only [LocalLRUCache.set, hl]
    by_cases hlen : s.cache.length ≥ s.max_size
    · rw [if_pos hlen,
        lookupKey_append_right _ _ _ (lookupKey_tail_none s.cache key hl)]
      simp [lookupKey]
    · rw [if_neg hlen, lookupKey_append_right _ _ _ hl]
      simp [lookupKey]

theorem set_ttl_eq (s : LocalLRUCache) (key value : String) (now : ℚ) :
    (s.set key value now).ttl = s.ttl := by
  unfold LocalLRUCache.set
  cases lookupKey s.cache key with
  | none => by_cases h : s.cache.length ≥ s.max_size <;> simp [h]
  | some item => rfl

theorem set_max_size_eq (s : LocalLRUCache) (key value : String) (now : ℚ) :
    (s.set key value now).max_size = s.max_size := by
  unfold LocalLRUCache.set
  cases lookupKey s.cache key with
  | none => by_cases h : s.cache.length ≥ s.max_size <;> simp [h]
  | some item => rfl

/-- A `get` that reports absent leaves no live entry for the key: either
the key was absent all along, or its expired entry was just deleted. -/
theorem get_miss_lookup_none (s : LocalLRUCache) (key : String) (now : ℚ)
    (h : (s.get key now).1 = none) :
    lookupKey (s.get key now).2.cache key = none := by
  unfold LocalLRUCache.get at *
  cases hl : lookupKey s.cache key with
  | none => simpa [hl] using hl
  | some item =>
    by_cases he : item.is_expired now s.ttl
    · simp only [hl, if_pos he]
      exact lookupKey_eraseKey_self s.cache key
    · simp [hl, if_neg he] at h

/-- A `get` that returns a value is a hit on the stored item. -/
theorem get_hit_value (s : LocalLRUCache) (key : String) (now : ℚ)
    (item : CacheItem) (hl : lookupKey s.cache key = some item)
    (he : ¬ now - item.timestamp > s.ttl) :
    (s.get key now).1 = some item.value := by
  unfold LocalLRUCache.get
  simp [hl, CacheItem.is_expired, he]

end LocalCacheLemmas

/-- C1: `LocalLRUCache.get` returns the stored value, moves the entry to
the most-recently-used end and increments its access count — unless the
entry's age strictly exceeds `ttl`, in which case the entry is removed
and the call reports absent; every call bumps exactly one of the hit and
miss counters, the miss counter covering both the absent-key and the
expired case (the latter also bumping the expiration counter). -/
theorem c1_local_get_contract (s : LocalLRUCache) (key : String) (now : ℚ) :
    ((s.get key now).2.hits + (s.get key now).2.misses
       = s.hits + s.misses + 1) ∧
    (lookupKey s.cache key = none →
      (s.get key now).1 = none ∧
      (s.get key now).2.misses = s.misses + 1 ∧
      (s.get key now).2.hits = s.hits ∧
      (s.get key now).2.cache = s.cache) ∧
    (∀ item, lookupKey s.cache key = some item →
      (now - item.timestamp > s.ttl →
        (s.get key now).1 = none ∧
        (s.get key now).2.misses = s.misses + 1 ∧
        (s.get key now).2.hits = s.hits ∧
        (s.get key now).2.expirations = s.expirations + 1 ∧
        lookupKey (s.get key now).2.cache key = none) ∧
      (¬ now - item.timestamp > s.ttl →
        (s.get key now).1 = some item.value ∧
        (s.get key now).2.hits = s.hits + 1 ∧
        (s.get key now).2.misses = s.misses ∧
        (s.get key now).2.expirations = s.expirations ∧
        lookupKey (s.get key now).2.cache key
          = some (item.update_access now) ∧
        (s.get key now).2.cache.getLast?
          = some (key, item.update_access now))) := by
  refine ⟨?_, ?_, ?_⟩
  · unfold LocalLRUCache.get
    cases hl : lookupKey s.cache key with
    | none =>
      simp only []
      omega
    | some item =>
      by_cases he : item.is_expired now s.ttl
      · simp only [if_pos he]
        omega
      · simp only [if_neg he]
        omega
  · intro hl
    unfold LocalLRUCache.get
    simp [hl]
  · intro item hl
    constructor
    · intro he
      have he' : item.is_expired now s.ttl := by
        simpa [CacheItem.is_expired] using he
      unfold LocalLRUCache.get
      simp only [hl, if_pos he']
      simp [lookupKey_eraseKey_self]
    · intro he
      have he' : ¬ item.is_expired now s.ttl := by
        simpa [CacheItem.is_expired] using he
      have h1 : lookupKey (eraseKey s.cache key
          ++ [(key, item.update_access now)]) key
          = some (item.update_access now) := by
        rw [lookupKey_append_right _ _ _ (lookupKey_eraseKey_self s.cache key)]
        simp [lookupKey]
      unfold LocalLRUCache.get
      simp only [hl, if_neg he']
      simp [h1, List.getLast?_concat]

/-- A concrete run of the C1 contract: a fresh entry is a hit with its
access count bumped, and the same entry read past its TTL is a recorded
expiration. -/
theorem c1_local_get_contract_witness :
    (({ max_size := 10, ttl := 600, cache := [("city:rome", ⟨"IT", 0, 0, 0⟩)],
        hits := 0, misses := 0, evictions := 0,
        expirations := 0 } : LocalLRUCache).get "city:rome" 5).1
      = some "IT" ∧
    (({ max_size := 10, ttl := 600, cache := [("city:rome", ⟨"IT", 0, 0, 0⟩)],
        hits := 0, misses := 0, evictions := 0,
        expirations := 0 } : LocalLRUCache).get "city:rome" 601).1
      = none := by
  constructor
  · have h := c1_local_get_contract
      { max_size := 10, ttl := 600, cache := [("city:rome", ⟨"IT", 0, 0, 0⟩)],
        hits := 0, misses := 0, evictions := 0, expirations := 0 }
      "city:rome" 5
    exact (((h.2.2 ⟨"IT", 0, 0, 0⟩ (by rfl)).2) (by norm_num)).1
  · have h := c1_local_get_contract
      { max_size := 10, ttl := 600, cache := [("city:rome", ⟨"IT", 0, 0, 0⟩)],
        hits := 0, misses := 0, evictions := 0, expirations := 0 }
      "city:rome" 601
    exact (((h.2.2 ⟨"IT", 0, 0, 0⟩ (by rfl)).1) (by norm_num)).1

/-- C2: a `set` on an existing key refreshes the value and timestamp and
promotes the entry to most-recently-used without incrementing the
eviction counter or disturbing any other entry; a `set` of a new key at
capacity increments the eviction counter, removes the head
(least-recently-used) entry, and inserts the new key
most-recently-used, keeping the size at `max_size`; and inserting
k1..k11 into an empty capacity-10 cache evicts exactly k1, leaving
k2..k11 and size 10. -/
theorem c2_local_set_contract :
    (∀ (s : LocalLRUCache) (key value : String) (now : ℚ) item,
      lookupKey s.cache key = some item →
        (s.set key value now).evictions = s.evictions ∧
        lookupKey (s.set key value now).cache key
          = some (CacheItem.update_access
              ⟨value, now, item.access_count, item.last_accessed⟩ now) ∧
        (s.set key value now).cache.getLast?
          = some (key, CacheItem.update_access
              ⟨value, now, item.access_count, item.last_accessed⟩ now) ∧
        (∀ k', k' ≠ key →
          lookupKey (s.set key value now).cache k' = lookupKey s.cache k')) ∧
    (∀ (s : LocalLRUCache) (key value : String) (now : ℚ),
      lookupKey s.cache key = none →
      s.cache.length = s.max_size → 1 ≤ s.max_size →
      (s.cache.map Prod.fst).Nodup →
        (s.set key value now).evictions = s.evictions + 1 ∧
        (s.set key value now).cache.length = s.max_size ∧
        (s.set key value now).cache.getLast? = some (key, ⟨value, now, 0, now⟩) ∧
        (∀ ka item0, s.cache.head? = some (ka, item0) →
          lookupKey (s.set key value now).cache ka = none)) ∧
    (lookupKey scenarioElevenInserts.cache "k1" = none ∧
     (lookupKey scenarioElevenInserts.cache "k2").isSome ∧
     (lookupKey scenarioElevenInserts.cache "k3").isSome ∧
     (lookupKey scenarioElevenInserts.cache "k4").isSome ∧
     (lookupKey scenarioElevenInserts.cache "k5").isSome ∧
     (lookupKey scenarioElevenInserts.cache "k6").isSome ∧
     (lookupKey scenarioElevenInserts.cache "k7").isSome ∧
     (lookupKey scenarioElevenInserts.cache "k8").isSome ∧
     (lookupKey scenarioElevenInserts.cache "k9").isSome ∧
     (lookupKey scenarioElevenInserts.cache "k10").isSome ∧
     (lookupKey scenarioElevenInserts.cache "k11").isSome ∧
     scenarioElevenInserts.size = 10 ∧
     scenarioElevenInserts.evictions = 1) := by
  refine ⟨?_, ?_, by decide⟩
  · intro s key value now item hl
    refine ⟨?_, ?_, ?_, ?_⟩
    · simp only [LocalLRUCache.set, hl]
    · simp only [LocalLRUCache.set, hl]
      rw [lookupKey_append_right _ _ _ (lookupKey_eraseKey_self s.cache key)]
      simp [lookupKey, CacheItem.update_access]
    · simp only [LocalLRUCache.set, hl]
      rw [List.getLast?_concat]
    · intro k' hk
      simp only [LocalLRUCache.set, hl]
      rw [lookupKey_append_single_ne _ _ _ (fun hc => hk hc.symm)]
      exact lookupKey_eraseKey_ne s.cache key k' hk
  · intro s key value now hl hlen hmax hnd
    have hge : s.cache.length ≥ s.max_size := le_of_eq hlen.symm
    have hne : s.cache ≠ [] := by
      intro h0
      rw [h0] at hlen
      simp at hlen
      omega
    refine ⟨?_, ?_, ?_, ?_⟩
    · simp only [LocalLRUCache.set, hl, if_pos hge]
    · simp only [LocalLRUCache.set, hl, if_pos hge]
      simp only [List.length_append, List.length_cons, List.length_nil,
        List.length_tail]
      omega
    · simp only [LocalLRUCache.set, hl, if_pos hge]
      exact List.getLast?_concat _
    · intro ka item0 hhead
      obtain ⟨p, t, hc⟩ : ∃ p t, s.cache = p :: t := by
        cases hcc : s.cache with
        | nil => exact absurd hcc hne
        | cons p t => exact ⟨p, t, rfl⟩
      rw [hc] at hhead
      simp only [List.head?_cons, Option.some_inj] at hhead
      subst hhead
      have hka : ka ≠ key := by
        intro hk
        rw [hc] at hl
        simp [lookupKey, hk] at hl
      have hnotin : ka ∉ t.map Prod.fst := by
        rw [hc] at hnd
        simp only [List.map_cons, List.nodup_cons] at hnd
        exact hnd.1
      have hcache : (s.set key value now).cache
          = s.cache.tail ++ [(key, ⟨value, now, 0, now⟩)] := by
        simp only [LocalLRUCache.set, hl, if_pos hge]
      rw [hcache, hc, List.tail_cons,
        lookupKey_append_single_ne _ _ _ (Ne.symm hka)]
      exact lookupKey_eq_none_of_not_mem t ka hnotin

/-- A concrete run of the C2 contract: refreshing an existing key at
capacity does not evict, and inserting a fresh key into the same full
cache evicts the least-recently-used entry. -/
theorem c2_local_set_contract_witness :
    ((cacheTwoFull.set "a" "9" 4).evictions = 0) ∧
    ((cacheTwoFull.set "c" "3" 4).evictions = 1) ∧
    (lookupKey (cacheTwoFull.set "c" "3" 4).cache "a" = none) := by
  refine ⟨?_, ?_, ?_⟩
  · exact (c2_local_set_contract.1 cacheTwoFull
      "a" "9" 4 ⟨"1", 0, 0, 0⟩ (by rfl)).1
  · exact (c2_local_set_contract.2.1 cacheTwoFull
      "c" "3" 4 (by rfl) (by rfl) (by decide) (by decide)).1
  · exact (c2_local_set_contract.2.1 cacheTwoFull
      "c" "3" 4 (by rfl) (by rfl) (by decide) (by decide)).2.2.2
      "a" ⟨"1", 0, 0, 0⟩ (by rfl)

section RunLemmas

theorem apply_max_size_eq (s : LocalLRUCache) (op : CacheOp) :
    (s.apply op).max_size = s.max_size := by
  cases op with
  | get k now =>
    show (s.get k now).2.max_size = s.max_size
    unfold LocalLRUCache.get
    cases lookupKey s.cache k with
    | none => rfl
    | some item => by_cases h : item.is_expired now s.ttl <;> simp [h]
  | set k v now => exact set_max_size_eq s k v now
  | delete k =>
    show (s.delete k).2.max_size = s.max_size
    unfold LocalLRUCache.delete
    split <;> rfl
  | clear => rfl

theorem apply_size_le (s : LocalLRUCache) (op : CacheOp)
    (hmax : 1 ≤ s.max_size) (hs : s.cache.length ≤ s.max_size) :
    (s.apply op).cache.length ≤ s.max_size := by
  cases op with
  | get k now =>
    show (s.get k now).2.cache.length ≤ s.max_size
    unfold LocalLRUCache.get
    cases hl : lookupKey s.cache k with
    | none => simpa using hs
    | some item =>
      by_cases he : item.is_expired now s.ttl
      · simp only [if_pos he]
        exact le_trans (eraseKey_length_le s.cache k) hs
      · simp only [if_neg he]
        have := eraseKey_length_lt s.cache k (by simp [hl])
        simp only [List.length_append, List.length_cons, List.length_nil]
        omega
  | set k v now =>
    show (s.set k v now).cache.length ≤ s.max_size
    unfold LocalLRUCache.set
    cases hl : lookupKey s.cache k with
    | some item =>
      have := eraseKey_length_lt s.cache k (by simp [hl])
      simp only [List.length_append, List.length_cons, List.length_nil]
      omega
    | none =>
      by_cases hlen : s.cache.length ≥ s.max_size
      · simp only [if_pos hlen]
        have htail := List.length_tail s.cache
        simp only [List.length_append, List.length_cons, List.length_nil]
        omega
      · simp only [if_neg hlen]
        simp only [List.length_append, List.length_cons, List.length_nil]
        omega
  | delete k =>
    show (s.delete k).2.cache.length ≤ s.max_size
    unfold LocalLRUCache.delete
    split
    · exact le_trans (eraseKey_length_le s.cache k) hs
    · simpa using hs
  | clear => simpa [LocalLRUCache.apply, LocalLRUCache.clear] using hmax.le'

theorem run_size_le (ops : List CacheOp) : ∀ (s : LocalLRUCache),
    1 ≤ s.max_size → s.cache.length ≤ s.max_size →
    (s.run ops).cache.length ≤ s.max_size := by
  induction ops with
  | nil =>
    intro s _ h2
    exact h2
  | cons op rest ih =>
    intro s h1 h2
    have hm := apply_max_size_eq s op
    have hstep := apply_size_le s op h1 h2
    have := ih (s.apply op) (hm ▸ h1) (hm ▸ hstep)
    simpa [LocalLRUCache.run, hm] using this

end RunLemmas

/-- C7: for every sequence of operations starting from a freshly
constructed cache, the entry count stays within `[0, max_size]` after
each operation, and no counter is ever negative.  The hypothesis
`1 ≤ max_size` reflects the configuration bound `cache_max_size ≥ 1`
(config.py, `ge=1`); at `max_size = 0` Python's eviction `popitem` would
raise on the empty dict and the operation would not complete.  The
counters are naturals in the embedding — the code only increments them
or resets them to zero — so the non-negativity conjuncts hold by
construction. -/
theorem c7_size_invariant (max_size : ℕ) (ttl : ℚ) (ops : List CacheOp)
    (hmax : 1 ≤ max_size) :
    ((LocalLRUCache.init max_size ttl).run ops).size ≤ max_size ∧
    0 ≤ (((LocalLRUCache.init max_size ttl).run ops).hits : ℤ) ∧
    0 ≤ (((LocalLRUCache.init max_size ttl).run ops).misses : ℤ) ∧
    0 ≤ (((LocalLRUCache.init max_size ttl).run ops).evictions : ℤ) ∧
    0 ≤ (((LocalLRUCache.init max_size ttl).run ops).expirations : ℤ) := by
  refine ⟨?_, Int.ofNat_nonneg _, Int.ofNat_nonneg _, Int.ofNat_nonneg _,
    Int.ofNat_nonneg _⟩
  exact run_size_le ops (LocalLRUCache.init max_size ttl) hmax (by simp [LocalLRUCache.init])

/-- A concrete run of the C7 invariant: the 11-insert scenario sequence
stays within the capacity bound. -/
theorem c7_size_invariant_witness :
    ((LocalLRUCache.init 10 600).run
      [.set "k1" "v1" 1, .get "k1" 2, .set "k2" "v2" 3, .delete "k1",
       .clear, .set "k3" "v3" 4]).size ≤ 10 :=
  (c7_size_invariant 10 600
    [.set "k1" "v1" 1, .get "k1" 2, .set "k2" "v2" 3, .delete "k1",
     .clear, .set "k3" "v3" 4] (by norm_num)).1

/-- C10: `delete` on a physically present key returns `True` and removes
the entry without consulting TTL or the clock (its result is unchanged
under any `ttl`), and every `delete` — hit or miss — leaves the four
counters and every other entry untouched. -/
theorem c10_delete_contract (s : LocalLRUCache) (key : String) :
    (s.delete key).1 = (lookupKey s.cache key).isSome ∧
    lookupKey (s.delete key).2.cache key = none ∧
    (s.delete key).2.hits = s.hits ∧
    (s.delete key).2.misses = s.misses ∧
    (s.delete key).2.evictions = s.evictions ∧
    (s.delete key).2.expirations = s.expirations ∧
    (∀ k', k' ≠ key →
      lookupKey (s.delete key).2.cache k' = lookupKey s.cache k') ∧
    (∀ t : ℚ, (LocalLRUCache.delete { s with ttl := t } key).1
      = (s.delete key).1) := by
  by_cases h : (lookupKey s.cache key).isSome
  · have hd : s.delete key = (true, { s with cache := eraseKey s.cache key }) := by
      unfold LocalLRUCache.delete
      rw [if_pos h]
    rw [hd]
    refine ⟨h.symm, lookupKey_eraseKey_self s.cache key, rfl, rfl, rfl,
      rfl, ?_, ?_⟩
    · intro k' hk
      exact lookupKey_eraseKey_ne s.cache key k' hk
    · intro t
      simp [LocalLRUCache.delete, h, hd]
  · have hnone : lookupKey s.cache key = none := by
      cases hc : lookupKey s.cache key with
      | none => rfl
      | some item => simp [hc] at h
    have hd : s.delete key = (false, s) := by
      unfold LocalLRUCache.delete
      rw [if_neg h]
    rw [hd]
    refine ⟨by simp [hnone], hnone, rfl, rfl, rfl, rfl, ?_, ?_⟩
    · intro k' _
      rfl
    · intro t
      simp [LocalLRUCache.delete, h, hd]

/-- A concrete run of the C10 contract: deleting an entry whose age (at
any plausible clock reading, its timestamp is 0 against a TTL of 600) is
far past expiry still returns `True` and leaves the counters alone —
`delete` takes no clock argument at all. -/
theorem c10_delete_contract_witness :
    (cacheWithStale.delete "old").1 = true ∧
    (cacheWithStale.delete "old").2.hits = 7 := by
  have h := c10_delete_contract cacheWithStale "old"
  exact ⟨by rw [h.1]; rfl, by rw [h.2.2.1]; rfl⟩

section ManagerLemmas

/-- Inserting a key that is absent from the cache stores exactly the
fresh item built by `set` (both the eviction and the plain-append
branch). -/
theorem set_lookup_self_new (s : LocalLRUCache) (key value : String)
    (now : ℚ) (hl : lookupKey s.cache key = none) :
    lookupKey (s.set key value now).cache key = some ⟨value, now, 0, now⟩ := by
  simp only [LocalLRUCache.set, hl]
  by_cases hlen : s.cache.length ≥ s.max_size
  · rw [if_pos hlen,
      lookupKey_append_right _ _ _ (lookupKey_tail_none s.cache key hl)]
    simp [lookupKey]
  · rw [if_neg hlen, lookupKey_append_right _ _ _ hl]
    simp [lookupKey]

end ManagerLemmas

/-- C3: the coordinator's read path.  On a local hit the value is
returned with an empty remote trace (the remote tier is not consulted).
On a local miss the remote adapter is queried; a remote hit is written
back into the local tier only — the trace holds the single remote read
and no remote write — and returned; a remote miss (which also covers
every remote failure, by C5) returns absent. -/
theorem c3_manager_get_tiering (env : RedisEnv) (s : CacheManager)
    (key : String) (now : ℚ) :
    (∀ v local', s.local_cache.get key now = (some v, local') →
      CacheManager.get env s key now
        = (some v, { s with local_cache := local' }, [])) ∧
    (∀ local', s.local_cache.get key now = (none, local') →
      (∀ v, RedisCache.get env s.redis_cache key = some v →
        (CacheManager.get env s key now).1 = some v ∧
        (CacheManager.get env s key now).2.2 = [RemoteOp.get key] ∧
        (CacheManager.get env s key now).2.1.redis_cache = s.redis_cache ∧
        lookupKey (CacheManager.get env s key now).2.1.local_cache.cache key
          = some ⟨v, now, 0, now⟩) ∧
      (RedisCache.get env s.redis_cache key = none →
        CacheManager.get env s key now
          = (none, { s with local_cache := local' }, [RemoteOp.get key]))) := by
  refine ⟨?_, ?_⟩
  · intro v local' h
    simp only [CacheManager.get, h]
  · intro local' h
    have hmiss : lookupKey local'.cache key = none := by
      have h1 : (s.local_cache.get key now).1 = none := by rw [h]
      have h2 : (s.local_cache.get key now).2 = local' := by rw [h]
      rw [← h2]
      exact get_miss_lookup_none s.local_cache key now h1
    refine ⟨?_, ?_⟩
    · intro v hr
      have hg : CacheManager.get env s key now
          = (some v, { s with local_cache := local'.set key v now },
             [RemoteOp.get key]) := by
        simp only [CacheManager.get, h, hr]
      rw [hg]
      exact ⟨rfl, rfl, rfl, set_lookup_self_new local' key v now hmiss⟩
    · intro hr
      simp only [CacheManager.get, h, hr]

/-- A concrete run of the C3 contract: a local miss followed by a remote
hit returns the remote value with exactly one remote read in the trace,
and the fetched value lands in the local tier. -/
theorem c3_manager_get_tiering_witness :
    (CacheManager.get (envRedisHolds "IT") managerFresh "city:oslo" 0).1
      = some "IT" ∧
    (CacheManager.get (envRedisHolds "IT") managerFresh "city:oslo" 0).2.2
      = [RemoteOp.get "city:oslo"] ∧
    lookupKey (CacheManager.get (envRedisHolds "IT") managerFresh
      "city:oslo" 0).2.1.local_cache.cache "city:oslo"
      = some ⟨"IT", 0, 0, 0⟩ := by
  have h := (c3_manager_get_tiering (envRedisHolds "IT") managerFresh
    "city:oslo" 0).2
    { max_size := 10, ttl := 600, cache := [], hits := 0, misses := 1,
      evictions := 0, expirations := 0 }
    (by decide)
  have hh := h.1 "IT" (by rfl)
  exact ⟨hh.1, hh.2.1, hh.2.2.2⟩

/-- C4: the coordinator's write path.  `set` installs the value in the
local tier, attempts the remote write and discards its outcome: the
resulting state and trace are identical under every remote environment
(including a disconnected or raising adapter, whose `RedisCache.set`
returns `False` rather than raising, by C5), and a local read of the key
before TTL expiry returns the just-written value. -/
theorem c4_manager_set_contract (env env' : RedisEnv) (s : CacheManager)
    (key value : String) (now now' : ℚ) :
    (CacheManager.set env s key value now).1.local_cache
      = s.local_cache.set key value now ∧
    (CacheManager.set env s key value now).1.redis_cache = s.redis_cache ∧
    (CacheManager.set env s key value now).2 = [RemoteOp.set key value] ∧
    CacheManager.set env s key value now
      = CacheManager.set env' s key value now ∧
    (¬ now' - now > s.local_cache.ttl →
      ((CacheManager.set env s key value now).1.local_cache.get key now').1
        = some value) := by
  refine ⟨rfl, rfl, rfl, rfl, ?_⟩
  intro hfresh
  obtain ⟨item, hitem, hval, hts⟩ :=
    set_lookup_self s.local_cache key value now
  have httl := set_ttl_eq s.local_cache key value now
  have hne : ¬ now' - item.timestamp > (s.local_cache.set key value now).ttl := by
    rw [hts, httl]
    exact hfresh
  have := get_hit_value (s.local_cache.set key value now) key now' item
    hitem hne
  rw [show (CacheManager.set env s key value now).1.local_cache
    = s.local_cache.set key value now from rfl, this, hval]

/-- A concrete run of the C4 contract: even with the remote tier raising
on every call, `set` succeeds and the key reads back locally right at
the TTL boundary. -/
theorem c4_manager_set_contract_witness :
    ¬ (600 : ℚ) - 0 > managerFresh.local_cache.ttl ∧
    ((CacheManager.set envRedisDown managerFresh "city:lima" "PE" 0).1.local_cache.get
      "city:lima" 600).1 = some "PE" := by
  refine ⟨by norm_num [managerFresh, LocalLRUCache.init], ?_⟩
  exact (c4_manager_set_contract envRedisDown envRedisDown managerFresh
    "city:lima" "PE" 0 600).2.2.2.2
    (by norm_num [managerFresh, LocalLRUCache.init])

/-- C5: every connectivity-requiring method of the remote adapter
returns its neutral failure value — `None` for `get`, `False` for `set`,
`delete`, `clear` and `health_check` — when the adapter is disconnected,
and a raising remote primitive (`RemoteResult.err`, the embedded image
of an exception inside the `try` block) is converted to the same neutral
value; each method is a total function of the environment, which is the
embedding of "no exception reaches the caller". -/
theorem c5_redis_neutral_failure (env : RedisEnv) (s : RedisCache)
    (key value : String) :
    (s.connected = false →
      RedisCache.get env s key = none ∧
      RedisCache.set env s key value = false ∧
      RedisCache.delete env s key = false ∧
      RedisCache.clear env s = false ∧
      (RedisCache.health_check env s).1 = false) ∧
    (∀ m, env.getResult key = .err m → RedisCache.get env s key = none) ∧
    (∀ m, env.setResult key value = .err m →
      RedisCache.set env s key value = false) ∧
    (∀ m, env.delResult key = .err m → RedisCache.delete env s key = false) ∧
    (∀ m, env.flushResult = .err m → RedisCache.clear env s = false) ∧
    (∀ m, env.pingResult = .err m →
      (RedisCache.health_check env s).1 = false) := by
  refine ⟨?_, ?_, ?_, ?_, ?_, ?_⟩
  · intro hc
    simp [RedisCache.get, RedisCache.set, RedisCache.delete,
      RedisCache.clear, RedisCache.health_check, hc]
  · intro m hm
    simp [RedisCache.get, hm]
  · intro m hm
    simp [RedisCache.set, hm]
  · intro m hm
    simp [RedisCache.delete, hm]
  · intro m hm
    simp [RedisCache.clear, hm]
  · intro m hm
    cases hc : s.connected <;> simp [RedisCache.health_check, hm, hc]

/-- A concrete run of the C5 contract: a disconnected adapter paired
with a remote service that raises on every primitive yields `None` and
`False`, never an exception. -/
theorem c5_redis_neutral_failure_witness :
    RedisCache.get envRedisDown { connected := false } "k" = none ∧
    RedisCache.set envRedisDown { connected := false } "k" "v" = false ∧
    RedisCache.delete envRedisDown { connected := false } "k" = false ∧
    RedisCache.clear envRedisDown { connected := false } = false ∧
    (RedisCache.health_check envRedisDown { connected := false }).1 = false ∧
    RedisCache.get envRedisDown { connected := true } "k" = none :=
  ⟨(c5_redis_neutral_failure envRedisDown { connected := false } "k" "v").1
     rfl |>.1,
   (c5_redis_neutral_failure envRedisDown { connected := false } "k" "v").1
     rfl |>.2.1,
   (c5_redis_neutral_failure envRedisDown { connected := false } "k" "v").1
     rfl |>.2.2.1,
   (c5_redis_neutral_failure envRedisDown { connected := false } "k" "v").1
     rfl |>.2.2.2.1,
   (c5_redis_neutral_failure envRedisDown { connected := false } "k" "v").1
     rfl |>.2.2.2.2,
   (c5_redis_neutral_failure envRedisDown { connected := true } "k" "v").2.1
     "ConnectionError" rfl⟩

/-- C6 counterexample: with the emitter disconnected and its 10000-slot
delivery queue full, `_send_message` drops the event and returns the
*unchanged* state — the post-state equals the pre-state, so no counter
of any kind is incremented.  The code maintains no drop counter
(kafka_logger.py lines 250-257 log an error and return `False` on
`QueueFull`), refuting the claim's "a drop counter is incremented". -/
theorem c6_counterexample :
    loggerFullQueue.send_message envKafkaOk "city_service_logs" []
      = (SendOutcome.dropped, loggerFullQueue) := by
  have hq : loggerFullQueue.queue.length ≥ loggerFullQueue.queue_maxsize := by
    show (List.replicate 10000
      (⟨"city_service_logs", []⟩ : QueuedMessage)).length ≥ 10000
    rw [List.length_replicate]
  have hc : loggerFullQueue.connected = false := rfl
  unfold KafkaLogger.send_message
  rw [hc]
  simp only [Bool.false_eq_true, if_false]
  rw [if_pos hq]

/-- C6 (amended): while the emitter is disconnected and its delivery
queue is full, `_send_message`'s enqueue attempt (`put_nowait`) raises
`QueueFull` immediately — non-blocking — the event is dropped with only
an error log, the method returns `False` (`SendOutcome.dropped`), and
the emitter state is completely unchanged; no drop counter exists in the
code, so no counter moves.  `log_request` in the same situation still
updates its request counters and returns normally — the drop happens
inside the detached `asyncio.create_task` send, so the recording caller
neither blocks nor receives a failure. -/
theorem c6_amended_drop_on_full (env : KafkaEnv) (s : KafkaLogger)
    (topic : String) (message : List (String × JVal))
    (hc : s.connected = false)
    (hq : s.queue.length ≥ s.queue_maxsize) :
    s.send_message env topic message = (.dropped, s) ∧
    (∀ city rt ch sc ep mth rid iso,
      (KafkaLogger.log_request env s city rt ch sc ep mth
        rid topic iso).1.total_requests = s.total_requests + 1 ∧
      (KafkaLogger.log_request env s city rt ch sc ep mth
        rid topic iso).1.queue = s.queue ∧
      (KafkaLogger.log_request env s city rt ch sc ep mth
        rid topic iso).2 = SendOutcome.dropped) := by
  have hdrop : ∀ (t : KafkaLogger), t.connected = false →
      t.queue.length ≥ t.queue_maxsize →
      ∀ m, t.send_message env topic m = (.dropped, t) := by
    intro t htc htq m
    unfold KafkaLogger.send_message
    rw [htc]
    simp only [Bool.false_eq_true, if_false]
    rw [if_pos htq]
  refine ⟨hdrop s hc hq message, ?_⟩
  intro city rt ch sc ep mth rid iso
  have hstep := hdrop (s.bump ch) hc hq
  simp only [KafkaLogger.log_request]
  rw [hstep]
  exact ⟨rfl, rfl, rfl⟩

/-- A concrete run of the amended C6 contract: recording a request
against a disconnected emitter with a full queue still bumps the request
counter from 5 to 6 while the event itself is dropped. -/
theorem c6_amended_drop_on_full_witness :
    loggerFullQueue.connected = false ∧
    loggerFullQueue.queue.length ≥ loggerFullQueue.queue_maxsize ∧
    (KafkaLogger.log_request envKafkaOk loggerFullQueue "rome" 1 true 200
      none "GET" none "city_service_logs" "t0").1.total_requests = 6 ∧
    (KafkaLogger.log_request envKafkaOk loggerFullQueue "rome" 1 true 200
      none "GET" none "city_service_logs" "t0").2 = SendOutcome.dropped := by
  have hq : loggerFullQueue.queue.length ≥ loggerFullQueue.queue_maxsize := by
    show (List.replicate 10000
      (⟨"city_service_logs", []⟩ : QueuedMessage)).length ≥ 10000
    rw [List.length_replicate]
  have h := (c6_amended_drop_on_full envKafkaOk loggerFullQueue
    "city_service_logs" [] rfl hq).2 "rome" 1 true 200 none "GET" none "t0"
  exact ⟨rfl, hq, by rw [h.1]; rfl, h.2.2⟩

/-- C8 counterexample: at one hit and one miss the reported hit rate is
the percentage `50`, not the ratio `hits / (hits + misses) = 1/2` that
the claim states — `get_stats` multiplies by 100 (cache.py line 186). -/
theorem c8_counterexample :
    stateOneHitOneMiss.get_stats.hit_rate
      ≠ (stateOneHitOneMiss.hits : ℚ)
        / ((stateOneHitOneMiss.hits : ℚ) + (stateOneHitOneMiss.misses : ℚ)) := by
  have h : stateOneHitOneMiss.get_stats.hit_rate = 50 := by
    have h1 : stateOneHitOneMiss.get_stats.hit_rate
        = round2 ((((1 : ℕ) : ℚ) / (((2 : ℕ) : ℚ))) * 100) := rfl
    have h2 : ((((1 : ℕ) : ℚ) / (((2 : ℕ) : ℚ))) * 100) = (50 : ℚ) := by
      norm_num
    rw [h1, h2]
    unfold round2 roundHalfEven
    norm_num
  rw [h]
  show (50 : ℚ) ≠ ((1 : ℕ) : ℚ) / (((1 : ℕ) : ℚ) + ((1 : ℕ) : ℚ))
  norm_num

/-- C8 (amended): the hit rate reported by `stats()` is the *percentage*
`100 * hits / (hits + misses)`, rounded to two decimal places, and `0`
when no requests have occurred; `stats()` also reports the current size,
max size, TTL and all four counters. -/
theorem c8_stats_contract (s : LocalLRUCache) :
    (s.hits + s.misses = 0 → s.get_stats.hit_rate = 0) ∧
    (0 < s.hits + s.misses →
      s.get_stats.hit_rate
        = round2 (((s.hits : ℚ) / ((s.hits : ℚ) + (s.misses : ℚ))) * 100)) ∧
    s.get_stats.current_size = s.cache.length ∧
    s.get_stats.stats_max_size = s.max_size ∧
    s.get_stats.ttl_seconds = s.ttl ∧
    s.get_stats.total_hits = s.hits ∧
    s.get_stats.total_misses = s.misses ∧
    s.get_stats.total_requests = s.hits + s.misses ∧
    s.get_stats.stats_evictions = s.evictions ∧
    s.get_stats.stats_expirations = s.expirations := by
  refine ⟨?_, ?_, rfl, rfl, rfl, rfl, rfl, rfl, rfl, rfl⟩
  · intro h0
    show round2 (if 0 < s.hits + s.misses then _ else 0) = 0
    rw [if_neg (by omega)]
    unfold round2 roundHalfEven
    norm_num
  · intro hpos
    show round2 (if 0 < s.hits + s.misses then
      ((s.hits : ℚ) / ((s.hits + s.misses : ℕ) : ℚ)) * 100 else 0) = _
    rw [if_pos hpos]
    have hc : ((s.hits + s.misses : ℕ) : ℚ) = (s.hits : ℚ) + (s.misses : ℚ) := by
      push_cast
      ring
    rw [hc]

/-- A concrete run of the amended C8 contract: one hit and one miss
report a hit rate of 50 (percent). -/
theorem c8_stats_contract_witness :
    0 < stateOneHitOneMiss.hits + stateOneHitOneMiss.misses ∧
    stateOneHitOneMiss.get_stats.hit_rate = 50 := by
  refine ⟨by decide, ?_⟩
  have h := (c8_stats_contract stateOneHitOneMiss).2.1 (by decide)
  rw [h]
  have h2 : ((stateOneHitOneMiss.hits : ℚ)
      / ((stateOneHitOneMiss.hits : ℚ) + (stateOneHitOneMiss.misses : ℚ)))
      * 100 = (50 : ℚ) := by
    show (((1 : ℕ) : ℚ) / (((1 : ℕ) : ℚ) + ((1 : ℕ) : ℚ))) * 100 = (50 : ℚ)
    norm_num
  rw [h2]
  unfold round2 roundHalfEven
  norm_num

section SparseLemmas

theorem mem_sparse (l : List (String × Option JVal)) (k : String) (v : JVal) :
    (k, v) ∈ sparse l ↔ (k, some v) ∈ l := by
  induction l with
  | nil => simp [sparse]
  | cons p rest ih =>
    obtain ⟨ka, va⟩ := p
    cases va with
    | none =>
      simp only [sparse, List.filterMap_cons, Option.map_none'] at *
      simp only [List.mem_cons]
      constructor
      · intro h
        exact Or.inr (ih.mp h)
      · intro h
        rcases h with h | h
        · exact absurd (congrArg Prod.snd h) (by simp)
        · exact ih.mpr h
    | some w =>
      simp only [sparse, List.filterMap_cons, Option.map_some'] at *
      simp only [List.mem_cons]
      constructor
      · intro h
        rcases h with h | h
        · left
          obtain ⟨h1, h2⟩ := Prod.mk.injEq .. ▸ h
          simp at h
          exact Prod.ext h.1 (by simp [h.2])
        · exact Or.inr (ih.mp h)
      · intro h
        rcases h with h | h
        · left
          simp at h
          exact Prod.ext h.1 (by simp [h.2])
        · exact Or.inr (ih.mpr h)

end SparseLemmas

/-- C9: serializing any telemetry event to its wire dictionary keeps
exactly the fields whose value is set: a pair appears in `to_dict` iff
the corresponding field of the ordered `asdict` list is non-`None`.
Because the field keys of each message type are pairwise distinct, a
field left unset therefore does not appear in the wire form at all. -/
theorem c9_sparse_serialization :
    (∀ (m : RequestLogMessage) (k : String) (v : JVal),
      (k, v) ∈ m.to_dict ↔ (k, some v) ∈ m.asdict) ∧
    (∀ m : RequestLogMessage, (m.asdict.map Prod.fst).Nodup) ∧
    (∀ (m : SystemEventMessage) (k : String) (v : JVal),
      (k, v) ∈ m.to_dict ↔ (k, some v) ∈ m.asdict) ∧
    (∀ m : SystemEventMessage, (m.asdict.map Prod.fst).Nodup) ∧
    (∀ (m : ErrorLogMessage) (k : String) (v : JVal),
      (k, v) ∈ m.to_dict ↔ (k, some v) ∈ m.asdict) ∧
    (∀ m : ErrorLogMessage, (m.asdict.map Prod.fst).Nodup) := by
  refine ⟨?_, ?_, ?_, ?_, ?_, ?_⟩
  · intro m k v
    exact mem_sparse m.asdict k v
  · intro m
    have h : m.asdict.map Prod.fst
        = ["event_type", "timestamp", "request_id", "city_name", "endpoint",
           "method", "response_time_ms", "status_code", "cache_hit",
           "cache_hit_percentage", "total_requests", "service",
           "version"] := rfl
    rw [h]
    decide
  · intro m k v
    exact mem_sparse m.asdict k v
  · intro m
    have h : m.asdict.map Prod.fst
        = ["event_type", "timestamp", "event_name", "message", "level",
           "service", "version", "metadata"] := rfl
    rw [h]
    decide
  · intro m k v
    exact mem_sparse m.asdict k v
  · intro m
    have h : m.asdict.map Prod.fst
        = ["event_type", "timestamp", "error_type", "error_message",
           "stack_trace", "context", "service", "version"] := rfl
    rw [h]
    decide

end CityService
